import Mathlib

/-!
# gcrane gc: filter composition and collection

A shallow embedding of `cmd/gcrane/cmd/gc.go`: the two filter closures that `gc`
builds, the per-repository callback returned by `collector`, and the control flow
of `gc` itself.

Effects are made explicit by state passing over a `World`:

* standard output is the sequence of writes made so far (each `fmt.Printf` call is
  one write);
* a counter records how many times a filter predicate has been invoked;
* Go leaves the iteration order of `range` over a map unspecified, and it may
  differ from one iteration to the next; the order used by each upcoming map
  iteration is a choice of the runtime and is read from the world.

The regular-expression engine (`regexp.Compile`, `MatchString`), the reference
parser (`name.NewRepository`) and the registry client (`google.List`,
`google.Walk`) are collaborators outside the file; they are parameters of the
embedding (`Deps`).
-/

namespace Gcrane

/-! ## Data model -/

/-- A `time.Time` instant, as a number of nanoseconds on the wall-clock time line. -/
abbrev Time := Int

/-- `t.Before(u)`: the instant `t` is strictly earlier than `u`. -/
def Time.Before (t u : Time) : Bool := decide (t < u)

/-- Modelled from the spec: `google.ManifestInfo` is declared in `pkg/v1/google`,
outside the file. The manifest record carries the tag names currently pointing at
it and its upload timestamp; these are the two fields `gc` reads. -/
structure ManifestInfo where
  Tags : List String
  Uploaded : Time

/-- A Go `map[string]ManifestInfo`: key/value entries whose keys are pairwise
distinct. The order of `entries` is only a representation; iteration order is
chosen separately (see `rangeOrder`). A nil map has no entries. -/
structure ManifestMap where
  entries : List (String × ManifestInfo)
  distinct : (entries.map Prod.fst).Nodup

/-- Modelled from the spec: `google.Tags` is declared in `pkg/v1/google`, outside
the file. The tag listing is a mapping from digest to manifest record; `Manifests`
is the only field `collector` reads. -/
structure Tags where
  Manifests : ManifestMap

/-- Modelled from the spec: `name.Repository` is declared in `pkg/name`, outside
the file. It is an opaque validated reference; the only thing the code does with
it besides passing it on is print its canonical string form with `%s`. -/
structure Repository where
  name : String

/-- The observable state threaded through the program. -/
structure World where
  /-- the writes made to standard output so far, oldest first -/
  stdout : List String
  /-- how many times a filter predicate has been invoked so far -/
  evals : Nat
  /-- the runtime's choices of iteration order for the map iterations still to come -/
  picks : List Nat

/-- How a Go call ends: it returns an `error` value (`none` is nil), or it panics. -/
inductive Result (ε : Type) where
  | ret (err : Option ε)
  | panicked

/-- The type of the function value returned by `collector`:
`func(repo name.Repository, tags *google.Tags, err error) error`.
A nil `*google.Tags` is `none`, a nil `error` is `none`. -/
abbrev Callback (ε : Type) :=
  Repository → Option Tags → Option ε → World → World × Result ε

/-- The collaborators `gc` calls. `list` and `walk` stand for `google.List` and
`google.Walk` already applied to the authentication option, which `gc` only passes
through. `list` is the registry's answer for a repository; `walk` is given the
callback and the world and may invoke the callback any number of times. -/
structure Deps (ε : Type) (Regexp : Type) where
  newRepository : String → Except ε Repository
  compile : String → Except ε Regexp
  matchString : Regexp → String → Bool
  list : Repository → Option Tags × Option ε
  walk : Repository → Callback ε → World → World × Result ε

/-! ## Map iteration -/

/-- The order in which one `for k, v := range m` visits the entries of `m`, for a
given choice `pick` of the runtime: the `pick`-th arrangement of the entries
(the entries as stored when `pick` is out of range). -/
def rangeOrder (m : ManifestMap) (pick : Nat) : List (String × ManifestInfo) :=
  ((List.permutations' m.entries)[pick]?).getD m.entries

/-- Start a map iteration: take the next choice of the runtime from the world. -/
def startRange (m : ManifestMap) (w : World) : List (String × ManifestInfo) × World :=
  match w.picks with
  | [] => (m.entries, w)
  | p :: ps => (rangeOrder m p, { w with picks := ps })

/-! ## The filters built by `gc` (gc.go, lines 66-82) -/

/-- First closure: `return manifest.Uploaded.Before(before)`. -/
def ageFilter (before : Time) (manifest : ManifestInfo) : Bool :=
  manifest.Uploaded.Before before

/-- The loop of the second closure:
`for _, tag := range manifest.Tags { if re.MatchString(tag) { return false } }; return true`. -/
def tagLoop (isMatch : String → Bool) : List String → Bool
  | [] => true
  | tag :: rest => if isMatch tag then false else tagLoop isMatch rest

/-- Second closure: with the empty pattern, `len(manifest.Tags) == 0`; otherwise
the loop over the tags. -/
def namingFilter (pattern : String) (isMatch : String → Bool)
    (manifest : ManifestInfo) : Bool :=
  if pattern = "" then
    manifest.Tags.length == 0
  else
    tagLoop isMatch manifest.Tags

/-- The slice `filters` of `gc`: the age closure, then the naming closure, over the
captured `before`, `pattern` and compiled `re`. -/
def filters {ε Regexp : Type} (D : Deps ε Regexp) (before : Time) (pattern : String)
    (re : Regexp) : List (ManifestInfo → Bool) :=
  [ageFilter before, namingFilter pattern (D.matchString re)]

/-! ## `collector` (gc.go, lines 100-121) -/

/-- One write to standard output. -/
def printf (s : String) (w : World) : World :=
  { w with stdout := w.stdout ++ [s] }

/-- What `fmt.Printf("%s@%s\n", repo, digest)` writes. -/
def line (repo : Repository) (digest : String) : String :=
  repo.name ++ "@" ++ digest ++ "\n"

/-- The inner loop, returning the final value of `collect`:
`for _, f := range filters { if !f(manifest) { collect = false; break } }`. -/
def runFilters (manifest : ManifestInfo) :
    List (ManifestInfo → Bool) → World → World × Bool
  | [], w => (w, true)
  | f :: rest, w =>
    let w1 := { w with evals := w.evals + 1 }
    if !f manifest then (w1, false) else runFilters manifest rest w1

/-- The outer loop over the entries in the order of this iteration. -/
def rangeManifests (fs : List (ManifestInfo → Bool)) (repo : Repository) :
    List (String × ManifestInfo) → World → World
  | [], w => w
  | (digest, manifest) :: rest, w =>
    let r := runFilters manifest fs w
    let w2 := if r.2 then printf (line repo digest) r.1 else r.1
    rangeManifests fs repo rest w2

/-- The callback returned by `collector(filters)`. -/
def collector {ε : Type} (fs : List (ManifestInfo → Bool)) : Callback ε :=
  fun repo tags err w =>
    match err with
    | some e => (w, Result.ret (some e))
    | none =>
      match tags with
      | none => (w, Result.panicked)
      | some t =>
        let s := startRange t.Manifests w
        (rangeManifests fs repo s.1 s.2, Result.ret none)

/-! ## `gc` (gc.go, lines 54-98) -/

/-- A registry operation invoked by `gc` itself. -/
inductive Call where
  | list (repo : Repository)
  | walk (repo : Repository)

/-- What a run of `gc` leaves behind. -/
structure GcRun (ε : Type) where
  world : World
  /-- the registry operations `gc` invoked, in order -/
  calls : List Call
  result : Result ε

/-- The function `gc(root, recursive, before, pattern)`. -/
def gc {ε Regexp : Type} (D : Deps ε Regexp) (root : String) (recursive : Bool)
    (before : Time) (pattern : String) (w : World) : GcRun ε :=
  match D.newRepository root with
  | Except.error err => { world := w, calls := [], result := Result.ret (some err) }
  | Except.ok repo =>
    match D.compile pattern with
    | Except.error err => { world := w, calls := [], result := Result.ret (some err) }
    | Except.ok re =>
      let printUntaggedImages : Callback ε := collector (filters D before pattern re)
      if recursive then
        let r := D.walk repo printUntaggedImages w
        { world := r.1, calls := [Call.walk repo], result := r.2 }
      else
        let l := D.list repo
        let r := printUntaggedImages repo l.1 l.2 w
        { world := r.1, calls := [Call.list repo], result := r.2 }

/-! ## Observations -/

/-- The writes made to standard output between an earlier world and a later one. -/
def emitted (w w1 : World) : List String :=
  w1.stdout.drop w.stdout.length

/-! ## Specification-side descriptions -/

/-- A manifest satisfies every predicate of the list. -/
def passes (fs : List (ManifestInfo → Bool)) (manifest : ManifestInfo) : Bool :=
  fs.all (fun f => f manifest)

/-- The lines for the qualifying entries of an iteration order, in that order. -/
def linesOf (fs : List (ManifestInfo → Bool)) (repo : Repository)
    (order : List (String × ManifestInfo)) : List String :=
  (order.filter (fun e => passes fs e.2)).map (fun e => line repo e.1)

/-! ## A sample instantiation

A small set of collaborators and the listing of one repository, used to evaluate
the program at concrete inputs. -/

/-- A compiled pattern of the sample engine: literal text, anchored at the start
of the input or not. -/
structure LitRe where
  anchored : Bool
  lit : List Char

/-- The text `lit` stands at the start of the input. -/
def beginsWith : List Char → List Char → Bool
  | [], _ => true
  | _ :: _, [] => false
  | a :: as, b :: bs => a == b && beginsWith as bs

/-- The text `lit` stands somewhere in the input. -/
def occursIn (lit : List Char) : List Char → Bool
  | [] => beginsWith lit []
  | c :: cs => beginsWith lit (c :: cs) || occursIn lit cs

/-- The sample engine accepts an optional leading `^` followed by literal text and
rejects any pattern that holds a parenthesis. -/
def sampleCompile (p : String) : Except String LitRe :=
  if p.data.any (fun c => c == '(' || c == ')') then
    Except.error "error parsing regexp"
  else
    match p.data with
    | '^' :: rest => Except.ok { anchored := true, lit := rest }
    | cs => Except.ok { anchored := false, lit := cs }

/-- Unanchored matching of the sample engine. -/
def sampleMatch (re : LitRe) (s : String) : Bool :=
  if re.anchored then beginsWith re.lit s.data else occursIn re.lit s.data

/-- The invocation time `T` of the scenario, in nanoseconds. -/
def scenarioNow : Time := 1700000000000000000

/-- One day, in nanoseconds. -/
def day : Time := 86400000000000

/-- The repository `r`. -/
def repoR : Repository := { name := "r" }

/-- The listing of `r`: `d1` without tags, `d2` tagged `latest`, `d3` tagged
`v1-rc`, all uploaded ten days before `T`. -/
def scenario : Tags :=
  { Manifests :=
      { entries :=
          [("d1", { Tags := [], Uploaded := scenarioNow - 10 * day }),
           ("d2", { Tags := ["latest"], Uploaded := scenarioNow - 10 * day }),
           ("d3", { Tags := ["v1-rc"], Uploaded := scenarioNow - 10 * day })]
        distinct := by decide } }

/-- The sample registry knows the repository `r` only. -/
def sampleList (repo : Repository) : Option Tags × Option String :=
  if repo.name = "r" then (some scenario, none) else (none, some "not found")

/-- The sample collaborators; the sample walk visits the root repository only. -/
def sampleDeps : Deps String LitRe :=
  { newRepository := fun root =>
      if root = "" then Except.error "empty repository name" else Except.ok { name := root }
    compile := sampleCompile
    matchString := sampleMatch
    list := sampleList
    walk := fun repo cb w => cb repo (sampleList repo).1 (sampleList repo).2 w }

/-- The pattern `^v1`, compiled. -/
def reV1 : LitRe := { anchored := true, lit := ['v', '1'] }

/-- A world with nothing written and no choice fixed for the map iterations. -/
def w0 : World := { stdout := [], evals := 0, picks := [] }

/-- A world in which the next two map iterations use two different orders. -/
def wTwoOrders : World := { stdout := [], evals := 0, picks := [0, 1] }

/-- The callback of the scenario: pattern `^v1`, cutoff one day before `T`. -/
def scenarioCallback : Callback String :=
  collector (filters sampleDeps (scenarioNow - day) "^v1" reV1)

/-- The world after a first run of the scenario callback from `wTwoOrders`. -/
def afterFirstRun : World :=
  (scenarioCallback repoR (some scenario) none wTwoOrders).1

/-- The world after a second run over the same listing. -/
def afterSecondRun : World :=
  (scenarioCallback repoR (some scenario) none afterFirstRun).1

/-! ## Lemmas on the loops -/

theorem tagLoop_eq_true (isMatch : String → Bool) (tags : List String) :
    tagLoop isMatch tags = true ↔ ∀ tag ∈ tags, isMatch tag = false := by
  induction tags with
  | nil => simp [tagLoop]
  | cons t ts ih =>
    cases h : isMatch t <;> simp [tagLoop, h, ih]

theorem runFilters_snd (manifest : ManifestInfo) (fs : List (ManifestInfo → Bool))
    (w : World) : (runFilters manifest fs w).2 = passes fs manifest := by
  induction fs generalizing w with
  | nil => simp [runFilters, passes]
  | cons f rest ih =>
    cases h : f manifest
    · simp [runFilters, passes, h]
    · have := ih { w with evals := w.evals + 1 }
      simp [runFilters, passes, h] at this ⊢
      exact this

theorem runFilters_stdout (manifest : ManifestInfo) (fs : List (ManifestInfo → Bool))
    (w : World) : (runFilters manifest fs w).1.stdout = w.stdout := by
  induction fs generalizing w with
  | nil => simp [runFilters]
  | cons f rest ih =>
    cases h : f manifest
    · simp [runFilters, h]
    · have := ih { w with evals := w.evals + 1 }
      simp [runFilters, h] at this ⊢
      exact this

theorem rangeManifests_stdout (fs : List (ManifestInfo → Bool)) (repo : Repository)
    (order : List (String × ManifestInfo)) (w : World) :
    (rangeManifests fs repo order w).stdout = w.stdout ++ linesOf fs repo order := by
  induction order generalizing w with
  | nil => simp [rangeManifests, linesOf]
  | cons e rest ih =>
    obtain ⟨digest, manifest⟩ := e
    simp only [rangeManifests]
    rw [ih, runFilters_snd]
    cases h : passes fs manifest
    · simp [linesOf, h, runFilters_stdout]
    · simp [linesOf, h, printf, runFilters_stdout]

theorem rangeOrder_perm (m : ManifestMap) (pick : Nat) :
    (rangeOrder m pick).Perm m.entries := by
  unfold rangeOrder
  cases h : (List.permutations' m.entries)[pick]? with
  | none => simp
  | some o =>
    simp only [Option.getD_some]
    exact List.mem_permutations'.mp (List.getElem?_mem h)

/-- Every arrangement of the entries is the order of some choice of the runtime. -/
theorem rangeOrder_complete (m : ManifestMap) (order : List (String × ManifestInfo))
    (h : order.Perm m.entries) : ∃ pick, rangeOrder m pick = order := by
  obtain ⟨i, hi⟩ := List.mem_iff_getElem?.mp (List.mem_permutations'.mpr h)
  exact ⟨i, by simp [rangeOrder, hi]⟩

theorem startRange_perm (m : ManifestMap) (w : World) :
    (startRange m w).1.Perm m.entries := by
  unfold startRange
  cases w.picks with
  | nil => exact List.Perm.refl _
  | cons p ps => exact rangeOrder_perm m p

theorem startRange_stdout (m : ManifestMap) (w : World) :
    (startRange m w).2.stdout = w.stdout := by
  unfold startRange
  cases w.picks <;> rfl

theorem emitted_append (w w1 : World) (l : List String)
    (h : w1.stdout = w.stdout ++ l) : emitted w w1 = l := by
  simp [emitted, h]

/-- What a successful call of the callback writes. -/
theorem emitted_collector {ε : Type} (fs : List (ManifestInfo → Bool))
    (repo : Repository) (t : Tags) (w : World) :
    emitted w (collector fs repo (some t) (none : Option ε) w).1
      = linesOf fs repo (startRange t.Manifests w).1 := by
  apply emitted_append
  simp [collector, rangeManifests_stdout, startRange_stdout]

theorem result_collector {ε : Type} (fs : List (ManifestInfo → Bool))
    (repo : Repository) (t : Tags) (w : World) :
    (collector fs repo (some t) (none : Option ε) w).2 = Result.ret none := rfl

theorem line_injective (repo : Repository) : Function.Injective (line repo) := by
  intro a b h
  have h2 := congrArg String.data h
  simp only [line, String.data_append] at h2
  have h3 := List.append_cancel_right h2
  have h4 := List.append_cancel_left h3
  exact String.ext h4

theorem entry_unique (m : ManifestMap) (order : List (String × ManifestInfo))
    (hp : order.Perm m.entries) {d : String} {a b : ManifestInfo}
    (ha : (d, a) ∈ m.entries) (hb : (d, b) ∈ order) : b = a := by
  have hb2 : (d, b) ∈ m.entries := hp.subset hb
  have := List.inj_on_of_nodup_map m.distinct hb2 ha rfl
  exact (Prod.mk.inj this).2

theorem linesOf_nodup (fs : List (ManifestInfo → Bool)) (repo : Repository)
    (m : ManifestMap) (order : List (String × ManifestInfo))
    (hp : order.Perm m.entries) : (linesOf fs repo order).Nodup := by
  have hk : (order.map Prod.fst).Nodup := (hp.map Prod.fst).nodup_iff.mpr m.distinct
  have hf : ((order.filter (fun e => passes fs e.2)).map Prod.fst).Nodup :=
    hk.sublist ((List.filter_sublist _).map Prod.fst)
  have : linesOf fs repo order
      = ((order.filter (fun e => passes fs e.2)).map Prod.fst).map (line repo) := by
    simp [linesOf, List.map_map, Function.comp_def]
  rw [this]
  exact hf.map (line_injective repo)

theorem mem_linesOf (fs : List (ManifestInfo → Bool)) (repo : Repository)
    (m : ManifestMap) (order : List (String × ManifestInfo))
    (hp : order.Perm m.entries) {d : String} {a : ManifestInfo}
    (ha : (d, a) ∈ m.entries) :
    line repo d ∈ linesOf fs repo order ↔ passes fs a = true := by
  constructor
  · intro h
    simp only [linesOf, List.mem_map, List.mem_filter] at h
    obtain ⟨⟨d2, b⟩, ⟨hmem, hpass⟩, heq⟩ := h
    have hd : d2 = d := line_injective repo heq
    subst hd
    have := entry_unique m order hp ha hmem
    subst this
    exact hpass
  · intro h
    simp only [linesOf, List.mem_map, List.mem_filter]
    exact ⟨(d, a), ⟨hp.symm.subset ha, h⟩, rfl⟩

/-- Whether the line of a manifest of the listing is among the writes of a
successful call of the callback. -/
theorem reported_iff {ε : Type} (fs : List (ManifestInfo → Bool))
    (repo : Repository) (t : Tags) (w : World) {d : String} {a : ManifestInfo}
    (ha : (d, a) ∈ t.Manifests.entries) :
    line repo d ∈ emitted w (collector fs repo (some t) (none : Option ε) w).1
      ↔ passes fs a = true := by
  rw [emitted_collector]
  exact mem_linesOf fs repo t.Manifests _ (startRange_perm _ _) ha

theorem passes_filters {ε Regexp : Type} (D : Deps ε Regexp) (before : Time)
    (pattern : String) (re : Regexp) (a : ManifestInfo) :
    passes (filters D before pattern re) a = true
      ↔ a.Uploaded < before ∧ namingFilter pattern (D.matchString re) a = true := by
  simp [passes, filters, ageFilter, Time.Before]

theorem passes_perm {fs gs : List (ManifestInfo → Bool)} (h : fs.Perm gs)
    (a : ManifestInfo) : passes fs a = passes gs a := by
  have key : passes fs a = true ↔ passes gs a = true := by
    simp only [passes, List.all_eq_true]
    exact ⟨fun hx f hf => hx f (h.symm.subset hf), fun hx f hf => hx f (h.subset hf)⟩
  cases hf : passes fs a <;> cases hg : passes gs a <;> simp_all

theorem linesOf_perm_filters {fs gs : List (ManifestInfo → Bool)} (h : fs.Perm gs)
    (repo : Repository) (order : List (String × ManifestInfo)) :
    linesOf fs repo order = linesOf gs repo order := by
  have : (fun e : String × ManifestInfo => passes fs e.2)
      = (fun e => passes gs e.2) := funext (fun e => passes_perm h e.2)
  simp [linesOf, this]

theorem linesOf_perm_order (fs : List (ManifestInfo → Bool)) (repo : Repository)
    {o1 o2 : List (String × ManifestInfo)} (h : o1.Perm o2) :
    (linesOf fs repo o1).Perm (linesOf fs repo o2) :=
  (h.filter _).map _

theorem naming_nonempty {pattern : String} (hne : pattern ≠ "")
    (isMatch : String → Bool) (a : ManifestInfo) :
    namingFilter pattern isMatch a = true ↔ ∀ tag ∈ a.Tags, isMatch tag = false := by
  simp [namingFilter, hne, tagLoop_eq_true]

theorem naming_empty (isMatch : String → Bool) (a : ManifestInfo) :
    namingFilter "" isMatch a = true ↔ a.Tags.length = 0 := by
  simp [namingFilter]

/-- With a nil error and a nil listing the callback dereferences the nil pointer. -/
theorem collector_nil_listing {ε : Type} (fs : List (ManifestInfo → Bool))
    (repo : Repository) (w : World) :
    collector fs repo none (none : Option ε) w = (w, Result.panicked) := rfl

/-! ## The claims -/

/-- C1: with a non-empty pattern that compiles, a manifest of the listing is
reported by the callback over the filters of `gc` exactly when it was uploaded
strictly before the cutoff and none of its tags matches the compiled pattern. -/
theorem reported_iff_old_and_unmatched {ε Regexp : Type} (D : Deps ε Regexp)
    (before : Time) (pattern : String) (re : Regexp)
    (hne : pattern ≠ "") (_hc : D.compile pattern = Except.ok re)
    (repo : Repository) (t : Tags) (w : World) (d : String) (a : ManifestInfo)
    (ha : (d, a) ∈ t.Manifests.entries) :
    line repo d ∈ emitted w
        (collector (filters D before pattern re) repo (some t) (none : Option ε) w).1
      ↔ (a.Uploaded < before ∧ ∀ tag ∈ a.Tags, D.matchString re tag = false) := by
  rw [reported_iff (ε := ε) _ repo t w ha, passes_filters, naming_nonempty hne]

/-- The scenario of C1: pattern `^v1`, cutoff one day before `T`; `d1` and `d2`
are reported, `d3` is not, and the output is exactly the two lines. -/
theorem reported_iff_old_and_unmatched_witness :
    (line repoR "d1" ∈ emitted w0 (scenarioCallback repoR (some scenario) none w0).1
      ∧ line repoR "d2" ∈ emitted w0 (scenarioCallback repoR (some scenario) none w0).1
      ∧ line repoR "d3" ∉ emitted w0 (scenarioCallback repoR (some scenario) none w0).1)
    ∧ emitted w0 (scenarioCallback repoR (some scenario) none w0).1
        = ["r@d1\n", "r@d2\n"] :=
  ⟨⟨(reported_iff_old_and_unmatched sampleDeps (scenarioNow - day) "^v1" reV1
        (by decide) rfl repoR scenario w0 "d1"
        { Tags := [], Uploaded := scenarioNow - 10 * day } (by simp [scenario])).mpr
        ⟨by decide, by decide⟩,
    (reported_iff_old_and_unmatched sampleDeps (scenarioNow - day) "^v1" reV1
        (by decide) rfl repoR scenario w0 "d2"
        { Tags := ["latest"], Uploaded := scenarioNow - 10 * day } (by simp [scenario])).mpr
        ⟨by decide, by decide⟩,
    fun h => absurd
      ((reported_iff_old_and_unmatched sampleDeps (scenarioNow - day) "^v1" reV1
        (by decide) rfl repoR scenario w0 "d3"
        { Tags := ["v1-rc"], Uploaded := scenarioNow - 10 * day } (by simp [scenario])).mp
        h).2 (by decide)⟩,
   by decide⟩

/-- C2: with the empty pattern, a manifest of the listing is reported by the
callback over the filters of `gc` exactly when it has zero tags and was uploaded
strictly before the cutoff; so an untagged old manifest is reported and a manifest
with a tag never is, whatever its upload time. -/
theorem empty_pattern_reported_iff {ε Regexp : Type} (D : Deps ε Regexp)
    (before : Time) (re : Regexp)
    (repo : Repository) (t : Tags) (w : World) (d : String) (a : ManifestInfo)
    (ha : (d, a) ∈ t.Manifests.entries) :
    (line repo d ∈ emitted w
        (collector (filters D before "" re) repo (some t) (none : Option ε) w).1
      ↔ (a.Tags.length = 0 ∧ a.Uploaded < before))
    ∧ (a.Tags.length = 0 → a.Uploaded < before →
        line repo d ∈ emitted w
          (collector (filters D before "" re) repo (some t) (none : Option ε) w).1)
    ∧ (0 < a.Tags.length →
        line repo d ∉ emitted w
          (collector (filters D before "" re) repo (some t) (none : Option ε) w).1) := by
  have key : line repo d ∈ emitted w
        (collector (filters D before "" re) repo (some t) (none : Option ε) w).1
      ↔ (a.Tags.length = 0 ∧ a.Uploaded < before) := by
    rw [reported_iff (ε := ε) _ repo t w ha, passes_filters, naming_empty]
    exact And.comm
  refine ⟨key, fun h1 h2 => key.mpr ⟨h1, h2⟩, fun h1 h2 => ?_⟩
  have := (key.mp h2).1
  omega

/-- The scenario data under the empty pattern with the cutoff one day before `T`:
the untagged `d1` is reported, the tagged `d2` is not, and the output is the line
of `d1` alone. -/
theorem empty_pattern_reported_iff_witness :
    line repoR "d1" ∈ emitted w0
        (collector (filters sampleDeps (scenarioNow - day) "" reV1) repoR
          (some scenario) (none : Option String) w0).1
    ∧ line repoR "d2" ∉ emitted w0
        (collector (filters sampleDeps (scenarioNow - day) "" reV1) repoR
          (some scenario) (none : Option String) w0).1
    ∧ emitted w0
        (collector (filters sampleDeps (scenarioNow - day) "" reV1) repoR
          (some scenario) (none : Option String) w0).1 = ["r@d1\n"] :=
  ⟨(empty_pattern_reported_iff sampleDeps (scenarioNow - day) reV1 repoR scenario w0
      "d1" { Tags := [], Uploaded := scenarioNow - 10 * day }
      (by simp [scenario])).2.1 (by decide) (by decide),
   (empty_pattern_reported_iff sampleDeps (scenarioNow - day) reV1 repoR scenario w0
      "d2" { Tags := ["latest"], Uploaded := scenarioNow - 10 * day }
      (by simp [scenario])).2.2 (by decide),
   by decide⟩

/-- C3: for any predicates, repository and listing passed with a nil error, the
callback returns nil; what it appends to standard output holds, for each manifest
of the listing, the line `repository@digest` followed by a newline exactly once
when the manifest satisfies every predicate and not at all otherwise; every write
is such a line of a qualifying manifest; no line is written twice; earlier output
is left as it was; and when no manifest qualifies nothing is written. -/
theorem collector_output {ε : Type} (fs : List (ManifestInfo → Bool))
    (repo : Repository) (t : Tags) (w : World) :
    (collector fs repo (some t) (none : Option ε) w).2 = Result.ret none
    ∧ (collector fs repo (some t) (none : Option ε) w).1.stdout
        = w.stdout ++ emitted w (collector fs repo (some t) (none : Option ε) w).1
    ∧ (∀ d a, (d, a) ∈ t.Manifests.entries →
        List.count (repo.name ++ "@" ++ d ++ "\n")
            (emitted w (collector fs repo (some t) (none : Option ε) w).1)
          = if fs.all (fun f => f a) then 1 else 0)
    ∧ (∀ s ∈ emitted w (collector fs repo (some t) (none : Option ε) w).1,
        ∃ d a, (d, a) ∈ t.Manifests.entries ∧ fs.all (fun f => f a) = true
          ∧ s = repo.name ++ "@" ++ d ++ "\n")
    ∧ (emitted w (collector fs repo (some t) (none : Option ε) w).1).Nodup
    ∧ ((∀ d a, (d, a) ∈ t.Manifests.entries → fs.all (fun f => f a) = false) →
        emitted w (collector fs repo (some t) (none : Option ε) w).1 = []) := by
  have hperm := startRange_perm t.Manifests w
  have hnd := linesOf_nodup fs repo t.Manifests _ hperm
  have hall : ∀ s ∈ linesOf fs repo (startRange t.Manifests w).1,
      ∃ d a, (d, a) ∈ t.Manifests.entries ∧ fs.all (fun f => f a) = true
        ∧ s = repo.name ++ "@" ++ d ++ "\n" := by
    intro s hs
    simp only [linesOf, List.mem_map, List.mem_filter] at hs
    obtain ⟨⟨d, a⟩, ⟨hmem, hpass⟩, heq⟩ := hs
    exact ⟨d, a, hperm.subset hmem, hpass, heq.symm⟩
  rw [emitted_collector]
  refine ⟨rfl, ?_, ?_, hall, hnd, ?_⟩
  · simp [collector, rangeManifests_stdout, startRange_stdout]
  · intro d a ha
    have hm := mem_linesOf fs repo t.Manifests _ hperm (d := d) (a := a) ha
    change List.count (line repo d) _ = if passes fs a then 1 else 0
    cases hp : passes fs a
    · have : line repo d ∉ linesOf fs repo (startRange t.Manifests w).1 := by
        rw [hm, hp]; simp
      simp [List.count_eq_zero_of_not_mem this]
    · have : line repo d ∈ linesOf fs repo (startRange t.Manifests w).1 := by
        rw [hm, hp]
      simp [List.count_eq_one_of_mem hnd this]
  · intro hno
    cases hl : linesOf fs repo (startRange t.Manifests w).1 with
    | nil => rfl
    | cons s rest =>
      obtain ⟨d, a, hmem, hpass, _⟩ := hall s (by simp [hl])
      rw [hno d a hmem] at hpass
      exact absurd hpass (by simp)

/-- The scenario listing under the scenario callback: the call returns nil, the
line of the qualifying `d1` is written once, the line of `d3` is not written, and
the output is the two lines of `d1` and `d2`; under a predicate that nothing
satisfies, nothing is written. -/
theorem collector_output_witness :
    (scenarioCallback repoR (some scenario) none w0).2 = Result.ret none
    ∧ List.count "r@d1\n"
        (emitted w0 (scenarioCallback repoR (some scenario) none w0).1) = 1
    ∧ List.count "r@d3\n"
        (emitted w0 (scenarioCallback repoR (some scenario) none w0).1) = 0
    ∧ emitted w0 (scenarioCallback repoR (some scenario) none w0).1
        = ["r@d1\n", "r@d2\n"]
    ∧ emitted w0 (collector [fun _ => false] repoR (some scenario)
        (none : Option String) w0).1 = [] :=
  ⟨(collector_output (filters sampleDeps (scenarioNow - day) "^v1" reV1) repoR
      scenario w0).1,
   (collector_output (filters sampleDeps (scenarioNow - day) "^v1" reV1) repoR
      scenario w0).2.2.1 "d1" { Tags := [], Uploaded := scenarioNow - 10 * day }
      (by simp [scenario]),
   (collector_output (filters sampleDeps (scenarioNow - day) "^v1" reV1) repoR
      scenario w0).2.2.1 "d3" { Tags := ["v1-rc"], Uploaded := scenarioNow - 10 * day }
      (by simp [scenario]),
   by decide,
   (collector_output [fun _ => false] repoR scenario w0).2.2.2.2.2 (fun _ _ _ => rfl)⟩

/-- C4: given a non-nil error, whatever the predicates, the repository and the
listing value (nil included), the callback returns that very error and leaves the
world as it was: nothing is written, no predicate is evaluated, no map iteration
is started. -/
theorem collector_error {ε : Type} (fs : List (ManifestInfo → Bool))
    (repo : Repository) (tags : Option Tags) (e : ε) (w : World) :
    collector fs repo tags (some e) w = (w, Result.ret (some e))
    ∧ emitted w (collector fs repo tags (some e) w).1 = []
    ∧ (collector fs repo tags (some e) w).1.evals = w.evals := by
  refine ⟨rfl, ?_, rfl⟩
  simp [collector, emitted]

/-- C5: whatever the pattern and the tags, a manifest of the listing whose upload
time is the cutoff or later is not reported by the callback over the filters of
`gc`. -/
theorem not_reported_at_or_after_cutoff {ε Regexp : Type} (D : Deps ε Regexp)
    (before : Time) (pattern : String) (re : Regexp)
    (repo : Repository) (t : Tags) (w : World) (d : String) (a : ManifestInfo)
    (ha : (d, a) ∈ t.Manifests.entries) (hlate : before ≤ a.Uploaded) :
    line repo d ∉ emitted w
      (collector (filters D before pattern re) repo (some t) (none : Option ε) w).1 := by
  rw [reported_iff (ε := ε) _ repo t w ha, passes_filters]
  intro h
  exact absurd h.1 (not_lt.mpr hlate)

/-- The scenario of C5: cutoff twenty days before `T`, uploads ten days before
`T`; `d1` is not reported, the output is empty for the pattern `^v1` and for the
empty pattern, and a manifest uploaded at the cutoff instant itself is excluded. -/
theorem not_reported_at_or_after_cutoff_witness :
    line repoR "d1" ∉ emitted w0
      (collector (filters sampleDeps (scenarioNow - 20 * day) "^v1" reV1) repoR
        (some scenario) (none : Option String) w0).1
    ∧ emitted w0
        (collector (filters sampleDeps (scenarioNow - 20 * day) "^v1" reV1) repoR
          (some scenario) (none : Option String) w0).1 = []
    ∧ emitted w0
        (collector (filters sampleDeps (scenarioNow - 20 * day) "" reV1) repoR
          (some scenario) (none : Option String) w0).1 = []
    ∧ emitted w0
        (collector (filters sampleDeps (scenarioNow - 10 * day) "" reV1) repoR
          (some scenario) (none : Option String) w0).1 = [] :=
  ⟨not_reported_at_or_after_cutoff sampleDeps (scenarioNow - 20 * day) "^v1" reV1
      repoR scenario w0 "d1" { Tags := [], Uploaded := scenarioNow - 10 * day }
      (by simp [scenario]) (by decide),
   by decide, by decide, by decide⟩

/-- C6: when the pattern does not compile, `gc` returns a non-nil error, leaves
standard output untouched and invokes neither `List` nor `Walk`, for every root,
mode and cutoff; and when the root parses as a repository, the error returned is
the compilation error. -/
theorem gc_invalid_pattern {ε Regexp : Type} (D : Deps ε Regexp) (root : String)
    (recursive : Bool) (before : Time) (pattern : String) (e : ε) (w : World)
    (hc : D.compile pattern = Except.error e) :
    (∃ err, (gc D root recursive before pattern w).result = Result.ret (some err))
    ∧ (gc D root recursive before pattern w).world = w
    ∧ emitted w (gc D root recursive before pattern w).world = []
    ∧ (gc D root recursive before pattern w).calls = []
    ∧ (∀ repo, D.newRepository root = Except.ok repo →
        (gc D root recursive before pattern w).result = Result.ret (some e)) := by
  unfold gc
  cases hr : D.newRepository root with
  | error err =>
    refine ⟨⟨err, rfl⟩, rfl, by simp [emitted], rfl, ?_⟩
    intro repo h
    cases h
  | ok repo =>
    simp [hc, emitted]

/-- The pattern `(` with the sample collaborators, in both modes: the result is
the compilation error, nothing is written and no registry operation is invoked. -/
theorem gc_invalid_pattern_witness :
    sampleDeps.compile "(" = Except.error "error parsing regexp"
    ∧ (gc sampleDeps "r" true scenarioNow "(" w0).result
        = Result.ret (some "error parsing regexp")
    ∧ (gc sampleDeps "r" false scenarioNow "(" w0).result
        = Result.ret (some "error parsing regexp")
    ∧ (gc sampleDeps "r" true scenarioNow "(" w0).world = w0
    ∧ emitted w0 (gc sampleDeps "r" false scenarioNow "(" w0).world = []
    ∧ (gc sampleDeps "r" true scenarioNow "(" w0).calls = []
    ∧ (gc sampleDeps "r" false scenarioNow "(" w0).calls = [] :=
  ⟨rfl,
   (gc_invalid_pattern sampleDeps "r" true scenarioNow "(" "error parsing regexp" w0
      rfl).2.2.2.2 repoR rfl,
   (gc_invalid_pattern sampleDeps "r" false scenarioNow "(" "error parsing regexp" w0
      rfl).2.2.2.2 repoR rfl,
   (gc_invalid_pattern sampleDeps "r" true scenarioNow "(" "error parsing regexp" w0
      rfl).2.1,
   (gc_invalid_pattern sampleDeps "r" false scenarioNow "(" "error parsing regexp" w0
      rfl).2.2.1,
   (gc_invalid_pattern sampleDeps "r" true scenarioNow "(" "error parsing regexp" w0
      rfl).2.2.2.1,
   (gc_invalid_pattern sampleDeps "r" false scenarioNow "(" "error parsing regexp" w0
      rfl).2.2.2.1⟩

/-- C7: for a root that parses and a pattern that compiles. Without the recursive
flag, `gc` invokes `List` once for the repository and never `Walk`, and its world
and result are those of one call of the callback on the listing and error of
`List`; so an error of `List` is returned as it is with the world unchanged, and
a listing with a nil error gives nil. With the recursive flag, `gc` invokes `Walk`
once with the callback and never `List`, and its world and result are those of
`Walk`. -/
theorem gc_modes {ε Regexp : Type} (D : Deps ε Regexp) (root : String)
    (before : Time) (pattern : String) (repo : Repository) (re : Regexp) (w : World)
    (hr : D.newRepository root = Except.ok repo)
    (hc : D.compile pattern = Except.ok re) :
    ((gc D root false before pattern w).calls = [Call.list repo]
      ∧ (gc D root false before pattern w).world
          = (collector (filters D before pattern re) repo
              (D.list repo).1 (D.list repo).2 w).1
      ∧ (gc D root false before pattern w).result
          = (collector (filters D before pattern re) repo
              (D.list repo).1 (D.list repo).2 w).2
      ∧ (∀ e, (D.list repo).2 = some e →
          (gc D root false before pattern w).result = Result.ret (some e)
          ∧ (gc D root false before pattern w).world = w)
      ∧ (∀ t, D.list repo = (some t, none) →
          (gc D root false before pattern w).result = Result.ret none))
    ∧ ((gc D root true before pattern w).calls = [Call.walk repo]
      ∧ (gc D root true before pattern w).world
          = (D.walk repo (collector (filters D before pattern re)) w).1
      ∧ (gc D root true before pattern w).result
          = (D.walk repo (collector (filters D before pattern re)) w).2) := by
  refine ⟨⟨?_, ?_, ?_, ?_, ?_⟩, ?_, ?_, ?_⟩
  all_goals simp only [gc, hr, hc]
  all_goals try rfl
  · intro e he
    simp [he, collector]
  · intro t ht
    simp [ht, collector]

/-- The sample collaborators with the pattern `^v1`: on the repository `r`, one
`List` call, nil result and the two lines; on a repository the sample registry
does not know, the error of `List` and no output; with the recursive flag, one
`Walk` call and the world and result of the sample walk. -/
theorem gc_modes_witness :
    (sampleDeps.newRepository "r" = Except.ok repoR
      ∧ sampleDeps.compile "^v1" = Except.ok reV1)
    ∧ (gc sampleDeps "r" false (scenarioNow - day) "^v1" w0).calls = [Call.list repoR]
    ∧ (gc sampleDeps "r" false (scenarioNow - day) "^v1" w0).result = Result.ret none
    ∧ (gc sampleDeps "r" false (scenarioNow - day) "^v1" w0).world.stdout
        = ["r@d1\n", "r@d2\n"]
    ∧ ((gc sampleDeps "missing" false (scenarioNow - day) "^v1" w0).result
          = Result.ret (some "not found")
      ∧ (gc sampleDeps "missing" false (scenarioNow - day) "^v1" w0).world = w0)
    ∧ (gc sampleDeps "r" true (scenarioNow - day) "^v1" w0).calls = [Call.walk repoR]
    ∧ (gc sampleDeps "r" true (scenarioNow - day) "^v1" w0).result
        = (sampleDeps.walk repoR scenarioCallback w0).2 :=
  ⟨⟨rfl, rfl⟩,
   (gc_modes sampleDeps "r" (scenarioNow - day) "^v1" repoR reV1 w0 rfl rfl).1.1,
   (gc_modes sampleDeps "r" (scenarioNow - day) "^v1" repoR reV1 w0 rfl rfl).1.2.2.2.2
      scenario rfl,
   by decide,
   (gc_modes sampleDeps "missing" (scenarioNow - day) "^v1" { name := "missing" } reV1
      w0 rfl rfl).1.2.2.2.1 "not found" rfl,
   (gc_modes sampleDeps "r" (scenarioNow - day) "^v1" repoR reV1 w0 rfl rfl).2.1,
   (gc_modes sampleDeps "r" (scenarioNow - day) "^v1" repoR reV1 w0 rfl rfl).2.2.2⟩

/-- C8: for the same listing and cutoff, a manifest reported under the empty
pattern is also reported under any non-empty pattern that compiles. -/
theorem empty_pattern_subset {ε Regexp : Type} (D : Deps ε Regexp)
    (before : Time) (pattern : String) (re re0 : Regexp)
    (hne : pattern ≠ "") (_hc : D.compile pattern = Except.ok re)
    (repo : Repository) (t : Tags) (w w1 : World) (d : String) (a : ManifestInfo)
    (ha : (d, a) ∈ t.Manifests.entries)
    (h : line repo d ∈ emitted w
      (collector (filters D before "" re0) repo (some t) (none : Option ε) w).1) :
    line repo d ∈ emitted w1
      (collector (filters D before pattern re) repo (some t) (none : Option ε) w1).1 := by
  rw [reported_iff (ε := ε) _ repo t _ ha, passes_filters] at h ⊢
  rw [naming_empty] at h
  rw [naming_nonempty hne]
  refine ⟨h.1, ?_⟩
  have : a.Tags = [] := List.length_eq_zero.mp h.2
  simp [this]

/-- The untagged `d1` of the scenario is reported with the empty pattern and with
the pattern `^v1`; with `^v1` the tagged `d2` is reported as well. -/
theorem empty_pattern_subset_witness :
    line repoR "d1" ∈ emitted w0 (scenarioCallback repoR (some scenario) none w0).1
    ∧ emitted w0
        (collector (filters sampleDeps (scenarioNow - day) "" reV1) repoR
          (some scenario) (none : Option String) w0).1 = ["r@d1\n"]
    ∧ emitted w0 (scenarioCallback repoR (some scenario) none w0).1
        = ["r@d1\n", "r@d2\n"] :=
  ⟨empty_pattern_subset sampleDeps (scenarioNow - day) "^v1" reV1 reV1 (by decide) rfl
      repoR scenario w0 w0 "d1" { Tags := [], Uploaded := scenarioNow - 10 * day }
      (by simp [scenario]) (by decide),
   by decide, by decide⟩

/-- C9, as stated, fails: two runs of the same callback over the same listing,
the second iterating the map in another order than the first, print the two
qualifying lines in opposite orders. -/
theorem rerun_output_differs :
    emitted wTwoOrders afterFirstRun = ["r@d1\n", "r@d2\n"]
    ∧ emitted afterFirstRun afterSecondRun = ["r@d2\n", "r@d1\n"]
    ∧ emitted wTwoOrders afterFirstRun ≠ emitted afterFirstRun afterSecondRun := by
  decide

/-- C9, amended: two runs of the callback over the same listing with a nil error
return the same value, nil, and print the same lines the same number of times,
possibly in another order; when both runs iterate the map in the same order the
two outputs are the same sequence, the one determined by the predicates, the
repository and that order. -/
theorem rerun_same_lines {ε : Type} (fs : List (ManifestInfo → Bool))
    (repo : Repository) (t : Tags) (w1 w2 : World) :
    (collector fs repo (some t) (none : Option ε) w1).2 = Result.ret none
    ∧ (collector fs repo (some t) (none : Option ε) w2).2 = Result.ret none
    ∧ (emitted w1 (collector fs repo (some t) (none : Option ε) w1).1).Perm
        (emitted w2 (collector fs repo (some t) (none : Option ε) w2).1)
    ∧ ((startRange t.Manifests w1).1 = (startRange t.Manifests w2).1 →
        emitted w1 (collector fs repo (some t) (none : Option ε) w1).1
          = emitted w2 (collector fs repo (some t) (none : Option ε) w2).1) := by
  refine ⟨rfl, rfl, ?_, ?_⟩
  · rw [emitted_collector, emitted_collector]
    exact linesOf_perm_order fs repo
      ((startRange_perm t.Manifests w1).trans (startRange_perm t.Manifests w2).symm)
  · intro h
    rw [emitted_collector, emitted_collector, h]

/-- The two runs of the scenario from `wTwoOrders` print the same lines in another
order; two runs from `w0`, which iterate in the same order, print the same
sequence. -/
theorem rerun_same_lines_witness :
    (emitted wTwoOrders afterFirstRun).Perm (emitted afterFirstRun afterSecondRun)
    ∧ emitted w0 (scenarioCallback repoR (some scenario) none w0).1
        = emitted (scenarioCallback repoR (some scenario) none w0).1
            (scenarioCallback repoR (some scenario) none
              (scenarioCallback repoR (some scenario) none w0).1).1 :=
  ⟨(rerun_same_lines (filters sampleDeps (scenarioNow - day) "^v1" reV1) repoR scenario
      wTwoOrders afterFirstRun).2.2.1,
   (rerun_same_lines (filters sampleDeps (scenarioNow - day) "^v1" reV1) repoR scenario
      w0 (scenarioCallback repoR (some scenario) none w0).1).2.2.2 rfl⟩

/-- C10: the callback over the filters of `gc` in the order age, naming and the
callback over them in the order naming, age report the same lines; and for any
list of predicates and any rearrangement of it, the two callbacks report the same
lines, each the same number of times. -/
theorem filter_order_independent {ε Regexp : Type} (D : Deps ε Regexp)
    (before : Time) (pattern : String) (re : Regexp)
    (repo : Repository) (t : Tags) (w1 w2 : World) :
    (∀ s, s ∈ emitted w1
          (collector (filters D before pattern re) repo (some t) (none : Option ε) w1).1
        ↔ s ∈ emitted w2
          (collector [namingFilter pattern (D.matchString re), ageFilter before]
            repo (some t) (none : Option ε) w2).1)
    ∧ (∀ fs gs : List (ManifestInfo → Bool), fs.Perm gs →
        (∀ s, s ∈ emitted w1 (collector fs repo (some t) (none : Option ε) w1).1
            ↔ s ∈ emitted w2 (collector gs repo (some t) (none : Option ε) w2).1)
        ∧ (emitted w1 (collector fs repo (some t) (none : Option ε) w1).1).Perm
            (emitted w2 (collector gs repo (some t) (none : Option ε) w2).1)) := by
  have gen : ∀ fs gs : List (ManifestInfo → Bool), fs.Perm gs →
      (emitted w1 (collector fs repo (some t) (none : Option ε) w1).1).Perm
        (emitted w2 (collector gs repo (some t) (none : Option ε) w2).1) := by
    intro fs gs h
    rw [emitted_collector, emitted_collector, linesOf_perm_filters h]
    exact linesOf_perm_order gs repo
      ((startRange_perm t.Manifests w1).trans (startRange_perm t.Manifests w2).symm)
  refine ⟨fun s => ?_, fun fs gs h => ⟨fun s => (gen fs gs h).mem_iff, gen fs gs h⟩⟩
  exact (gen _ _ (List.Perm.swap _ _ [])).mem_iff

/-- The filters of the scenario in the order naming, age print the same lines as
in the order age, naming, also when the two runs iterate the map differently. -/
theorem filter_order_independent_witness :
    (∀ s, s ∈ emitted w0
          (collector [namingFilter "^v1" (sampleDeps.matchString reV1),
              ageFilter (scenarioNow - day)]
            repoR (some scenario) (none : Option String) w0).1
        ↔ s ∈ emitted afterFirstRun
          (collector [ageFilter (scenarioNow - day),
              namingFilter "^v1" (sampleDeps.matchString reV1)]
            repoR (some scenario) (none : Option String) afterFirstRun).1)
    ∧ emitted w0
        (collector [namingFilter "^v1" (sampleDeps.matchString reV1),
            ageFilter (scenarioNow - day)]
          repoR (some scenario) (none : Option String) w0).1 = ["r@d1\n", "r@d2\n"]
    ∧ emitted afterFirstRun
        (collector [ageFilter (scenarioNow - day),
            namingFilter "^v1" (sampleDeps.matchString reV1)]
          repoR (some scenario) (none : Option String) afterFirstRun).1
        = ["r@d2\n", "r@d1\n"] :=
  ⟨((filter_order_independent sampleDeps (scenarioNow - day) "^v1" reV1 repoR scenario
      w0 afterFirstRun).2 _ _
      (List.Perm.swap (ageFilter (scenarioNow - day))
        (namingFilter "^v1" (sampleDeps.matchString reV1)) [])).1,
   by decide, by decide⟩

end Gcrane
